import Mathlib

/-!
# Verification of the guerilla-furniture multi-worker coordination substrate

Shallow embedding of the coordination core of the `guerilla-furniture`
repository: the versioned shared-state store with property locks
(`SharedStateManager`, services/state/sharedStateManager.ts), the duplicate
optimistic-locking store (`SharedDesignState`,
services/cohesion/agentCommunicationProtocol.ts), the message bus
(`AgentCommunicationBus`, services/communication/AgentCommunicationBus.ts)
and the cohesion coordinator (`CohesionCoordinator`,
services/cohesion/cohesionCoordinator.ts).

Modelling conventions:
* JavaScript objects appearing in dynamic positions are modelled by the `Js`
  type below; JS arrays enter the model as objects keyed by their index
  strings, which is exactly how `Object.entries` (the only reflection the
  modelled code performs on them) presents them.
* Wall-clock time is an explicit `Int` of milliseconds; `new Date()` becomes
  a `now` parameter.  Each `setTimeout` auto-release scheduled by
  `acquireLock` is due at the lock's `expiresAt`; the event loop running the
  callbacks that are due before a later task starts is modelled by
  `Manager.fireTimers`.
* `deepClone` is the identity on the pure values of the model.
* Maps and Sets keep JS insertion-order semantics: association lists whose
  `set` overwrites in place and appends fresh keys, sets as duplicate-free
  ordered lists.
-/

namespace GF

/-- JS runtime values stored in the design document and in updates.  Arrays
are represented as objects with index keys (see the module comment);
`undefined` is represented by `Option.none` at the use sites that
distinguish it from `null`. -/
inductive Js where
  | num (q : Rat)
  | str (s : String)
  | bool (b : Bool)
  | null
  | obj (fields : List (String × Js))

/-- Association-list lookup, JS `obj[key]` / `Map.get` (`undefined` ↦
`none`). -/
def getKey {κ β : Type} [DecidableEq κ] (l : List (κ × β)) (k : κ) : Option β :=
  (l.find? (fun kv => kv.1 = k)).map (·.2)

/-- JS `obj[key] = v` / `Map.set`: overwrite in place if the key exists,
else append (insertion order preserved). -/
def setKey {κ β : Type} [DecidableEq κ] (l : List (κ × β)) (k : κ) (v : β) :
    List (κ × β) :=
  match l with
  | [] => [(k, v)]
  | (k', v') :: rest =>
    if k' = k then (k', v) :: rest else (k', v') :: setKey rest k v

/-- JS `Set.add`: append if absent (insertion order preserved). -/
def addIfAbsent (l : List String) (s : String) : List String :=
  if s ∈ l then l else l ++ [s]

mutual

/-- `SharedStateManager.getLockedProperties`'s inner `checkPath`: collect
every dotted path under `path` (including `path` itself) that is in the
`locked` set, recursing into object values. -/
def checkPath (locked : List String) (path : String) : Js → List String
  | .obj fields =>
    (if path ∈ locked then [path] else []) ++ checkPathFields locked path fields
  | _ => if path ∈ locked then [path] else []

/-- `checkPath` folded over the entries of an object. -/
def checkPathFields (locked : List String) (path : String) :
    List (String × Js) → List String
  | [] => []
  | (k, v) :: rest =>
    checkPath locked (path ++ "." ++ k) v ++ checkPathFields locked path rest

end

mutual

/-- All dotted paths `checkPath` visits below `path` (used to relate the
lock check to path membership). -/
def allPaths (path : String) : Js → List String
  | .obj fields => path :: allPathsFields path fields
  | _ => [path]

/-- `allPaths` folded over the entries of an object. -/
def allPathsFields (path : String) : List (String × Js) → List String
  | [] => []
  | (k, v) :: rest => allPaths (path ++ "." ++ k) v ++ allPathsFields path rest

end

/-- A `StateChange` record (`StateChange` in lib/types.ts):
`previous_value = none` models JS `undefined`. -/
structure StateChange where
  agent : String
  timestamp : Int
  previous_value : Option Js
  new_value : Js
  property_path : String
  reason : String

/-- The five constraint buckets of `DesignConstraints`, each a JS object. -/
structure Constraints where
  dimensional : List (String × Js)
  material : List (String × Js)
  structural : List (String × Js)
  aesthetic : List (String × Js)
  budget : List (String × Js)

/-- `SharedState` (lib/types.ts) as held by `SharedStateManager`. -/
structure StoreState where
  version : Nat
  design : List (String × Js)
  constraints : Constraints
  validation_results : List (String × Js)
  agent_decisions : List (String × Js)
  locked_properties : List String
  history : List StateChange

/-- A property lock (`Lock` record in sharedStateManager.ts).  Lock ids are
modelled as naturals (the source generates unique random strings). -/
structure Lock where
  id : Nat
  agent : String
  properties : List String
  acquiredAt : Int
  expiresAt : Int
deriving Repr, DecidableEq

/-- A snapshot in the manager's snapshot history (`StateSnapshot`); the
`hash` field is omitted because no modelled operation reads it. -/
structure Snapshot where
  version : Nat
  timestamp : Int
  state : StoreState

/-- The mutable fields of `SharedStateManager` (subscribers and the React
callback carry no state the claims mention). -/
structure Manager where
  state : StoreState
  locks : List Lock
  snapshots : List Snapshot
  nextLockId : Nat
  pendingChanges : List StateChange

def MAX_HISTORY_SIZE : Nat := 100
def LOCK_TIMEOUT : Int := 5000

/-- JS `array.slice(-n)`: the last `n` elements. -/
def takeLast {α : Type} (n : Nat) (l : List α) : List α :=
  l.drop (l.length - n)

/-- `initializeState()`. -/
def initState : StoreState :=
  { version := 0
    design := []
    constraints :=
      { dimensional := []
        material := []
        structural :=
          [("min_load_capacity", .num 50), ("min_safety_factor", .num 2),
           ("stability_requirement", .str "standard")]
        aesthetic := []
        budget := [] }
    validation_results := []
    agent_decisions := []
    locked_properties := []
    history := [] }

/-- `saveSnapshot()`: push a deep-cloned snapshot, keep the last
`MAX_HISTORY_SIZE`. -/
def Manager.saveSnapshot (m : Manager) (now : Int) : Manager :=
  let snaps := m.snapshots ++
    [{ version := m.state.version, timestamp := now, state := m.state }]
  { m with snapshots :=
      if snaps.length > MAX_HISTORY_SIZE then takeLast MAX_HISTORY_SIZE snaps
      else snaps }

/-- The constructor: initialize the state and save the version-0 snapshot. -/
def Manager.init : Manager :=
  Manager.saveSnapshot
    { state := initState, locks := [], snapshots := [], nextLockId := 0,
      pendingChanges := [] } 0

/-- The typed `updates` argument of `updateState` (its TS signature). -/
structure ConstraintsUpdate where
  dimensional : Option (List (String × Js)) := none
  material : Option (List (String × Js)) := none
  structural : Option (List (String × Js)) := none
  aesthetic : Option (List (String × Js)) := none
  budget : Option (List (String × Js)) := none

structure StateUpdate where
  design : Option (List (String × Js)) := none
  constraints : Option ConstraintsUpdate := none
  /-- `{agent, result}` of a validation update; the result is opaque. -/
  validation : Option (String × Js) := none
  /-- the decision object; `decision_type` and `reasoning` are the two
  fields `updateState` reads from it. -/
  decision : Option Js := none

/-- View of a `ConstraintsUpdate` as the JS object passed at runtime
(present keys only, declaration order). -/
def ConstraintsUpdate.toJs (c : ConstraintsUpdate) : List (String × Js) :=
  (match c.dimensional with | some d => [("dimensional", Js.obj d)] | none => []) ++
  (match c.material with | some d => [("material", Js.obj d)] | none => []) ++
  (match c.structural with | some d => [("structural", Js.obj d)] | none => []) ++
  (match c.aesthetic with | some d => [("aesthetic", Js.obj d)] | none => []) ++
  (match c.budget with | some d => [("budget", Js.obj d)] | none => [])

/-- View of a `StateUpdate` as the JS object passed at runtime. -/
def StateUpdate.toJs (u : StateUpdate) : List (String × Js) :=
  (match u.design with | some d => [("design", Js.obj d)] | none => []) ++
  (match u.constraints with | some c => [("constraints", Js.obj c.toJs)] | none => []) ++
  (match u.validation with
   | some (a, r) => [("validation", Js.obj [("agent", .str a), ("result", r)])]
   | none => []) ++
  (match u.decision with | some d => [("decision", d)] | none => [])

/-- `getLockedProperties(updates)`: run `checkPath` on every top-level entry
of the updates object. -/
def Manager.getLockedProperties (m : Manager) (updates : StateUpdate) :
    List String :=
  updates.toJs.foldl
    (fun acc kv => acc ++ checkPath m.state.locked_properties kv.1 kv.2) []

/-- One design-field write of `updateState` together with its change record. -/
def applyDesignEntry (agent : String) (now : Int)
    (acc : List (String × Js) × List StateChange) (kv : String × Js) :
    List (String × Js) × List StateChange :=
  let oldValue := getKey acc.1 kv.1
  (setKey acc.1 kv.1 kv.2,
   acc.2 ++ [{ agent := agent, timestamp := now, previous_value := oldValue,
               new_value := kv.2, property_path := "design." ++ kv.1,
               reason := "Updated by " ++ agent }])

/-- `Object.assign` on a constraint bucket. -/
def assignBucket (dst src : List (String × Js)) : List (String × Js) :=
  src.foldl (fun acc kv => setKey acc kv.1 kv.2) dst

/-- `createChange` as invoked by `updateConstraints`: note the source calls
`createChange` *after* the `Object.assign`, so `previous_value`
(`getValueAtPath path`) is the already-assigned sub-object. -/
def constraintChange (agent : String) (now : Int) (path : String)
    (assigned : List (String × Js)) (upd : List (String × Js)) : StateChange :=
  { agent := agent, timestamp := now, previous_value := some (Js.obj assigned),
    new_value := Js.obj upd, property_path := path,
    reason := "Updated by " ++ agent }

/-- `updateConstraints(updates, agentName, changes)`. -/
def updateConstraints (c : Constraints) (u : ConstraintsUpdate)
    (agent : String) (now : Int) : Constraints × List StateChange :=
  let dim : List (String × Js) × List StateChange := match u.dimensional with
    | some s => (assignBucket c.dimensional s,
        [constraintChange agent now "constraints.dimensional" (assignBucket c.dimensional s) s])
    | none => (c.dimensional, [])
  let mat : List (String × Js) × List StateChange := match u.material with
    | some s => (assignBucket c.material s,
        [constraintChange agent now "constraints.material" (assignBucket c.material s) s])
    | none => (c.material, [])
  let str' : List (String × Js) × List StateChange := match u.structural with
    | some s => (assignBucket c.structural s,
        [constraintChange agent now "constraints.structural" (assignBucket c.structural s) s])
    | none => (c.structural, [])
  let aes : List (String × Js) × List StateChange := match u.aesthetic with
    | some s => (assignBucket c.aesthetic s,
        [constraintChange agent now "constraints.aesthetic" (assignBucket c.aesthetic s) s])
    | none => (c.aesthetic, [])
  let bud : List (String × Js) × List StateChange := match u.budget with
    | some s => (assignBucket c.budget s,
        [constraintChange agent now "constraints.budget" (assignBucket c.budget s) s])
    | none => (c.budget, [])
  ({ dimensional := dim.1, material := mat.1, structural := str'.1,
     aesthetic := aes.1, budget := bud.1 },
   dim.2 ++ mat.2 ++ str'.2 ++ aes.2 ++ bud.2)

/-- Result record of `updateState`. -/
structure UpdateResult where
  success : Bool
  newVersion : Nat
  conflicts : Option (List String) := none
deriving Repr, DecidableEq

/-- The JS field read `decision.decision_type` / `decision.reasoning`
(the modelled callers always pass string fields). -/
def jsStrField (v : Js) (field : String) : String :=
  match v with
  | .obj fs => match getKey fs field with
    | some (.str s) => s
    | _ => "undefined"
  | _ => "undefined"

/-- `SharedStateManager.updateState(agentName, updates, expectedVersion)`.

The `try`-block of the source cannot raise in this pure model, so the
`catch`/`rollbackChanges` branch is unreachable and not modelled. -/
def Manager.updateState (m : Manager) (agentName : String)
    (updates : StateUpdate) (expectedVersion : Option Nat) (now : Int) :
    Manager × UpdateResult :=
  -- `if (expectedVersion !== undefined && expectedVersion !== this.state.version)`
  if expectedVersion.any (fun ev => ev != m.state.version) then
    (m, { success := false, newVersion := m.state.version,
          conflicts := some ["Version mismatch - state has been updated by another agent"] })
  else
    -- Check for locks
    let lockedProperties := m.getLockedProperties updates
    if lockedProperties ≠ [] then
      (m, { success := false, newVersion := m.state.version,
            conflicts := some (lockedProperties.map
              (fun p => "Property " ++ p ++ " is locked")) })
    else
      -- Apply updates
      let dres : List (String × Js) × List StateChange := match updates.design with
        | some d => d.foldl (applyDesignEntry agentName now) (m.state.design, [])
        | none => (m.state.design, [])
      let cres : Constraints × List StateChange := match updates.constraints with
        | some c => updateConstraints m.state.constraints c agentName now
        | none => (m.state.constraints, [])
      let vres : List (String × Js) × List StateChange := match updates.validation with
        | some av =>
          (setKey m.state.validation_results av.1 av.2,
           [{ agent := agentName, timestamp := now, previous_value := some Js.null,
              new_value := av.2, property_path := "validation." ++ av.1,
              reason := "Validation completed" }])
        | none => (m.state.validation_results, [])
      let deres : List (String × Js) × List StateChange := match updates.decision with
        | some d =>
          (setKey m.state.agent_decisions
             (agentName ++ "_" ++ jsStrField d "decision_type") d,
           [{ agent := agentName, timestamp := now, previous_value := some Js.null,
              new_value := d,
              property_path :=
                "decisions." ++ agentName ++ "_" ++ jsStrField d "decision_type",
              reason := jsStrField d "reasoning" }])
        | none => (m.state.agent_decisions, [])
      let changes := dres.2 ++ cres.2 ++ vres.2 ++ deres.2
      -- Update version and history, keep history size limited
      let newVersion := m.state.version + 1
      let history' := m.state.history ++ changes
      let m' : Manager :=
        { m with state :=
            { m.state with
                version := newVersion, design := dres.1,
                constraints := cres.1, validation_results := vres.1,
                agent_decisions := deres.1,
                history := if history'.length > MAX_HISTORY_SIZE
                  then takeLast MAX_HISTORY_SIZE history' else history' } }
      -- Save snapshot periodically
      let m'' := if newVersion % 10 = 0 then m'.saveSnapshot now else m'
      -- Batch changes for notification
      ({ m'' with pendingChanges := m''.pendingChanges ++ changes },
       { success := true, newVersion := newVersion })

/-- Result record of `acquireLock`. -/
structure AcquireResult where
  success : Bool
  lockId : Option Nat := none
  conflicts : Option (List String) := none
deriving Repr, DecidableEq

/-- `SharedStateManager.acquireLock(agentName, properties)` at time `now`.
The `setTimeout` auto-release it schedules is due at the new lock's
`expiresAt` and is run by `Manager.fireTimers`. -/
def Manager.acquireLock (m : Manager) (agentName : String)
    (properties : List String) (now : Int) : Manager × AcquireResult :=
  let conflicts := properties.foldl (fun acc prop =>
    acc ++ (m.locks.foldl (fun acc2 lock =>
      if prop ∈ lock.properties ∧ lock.agent ≠ agentName ∧ now < lock.expiresAt
      then acc2 ++ [prop ++ " locked by " ++ lock.agent] else acc2) [])) []
  if conflicts ≠ [] then
    (m, { success := false, conflicts := some conflicts })
  else
    let lockId := m.nextLockId
    let lock : Lock :=
      { id := lockId, agent := agentName, properties := properties,
        acquiredAt := now, expiresAt := now + LOCK_TIMEOUT }
    ({ m with
        locks := m.locks ++ [lock],
        nextLockId := m.nextLockId + 1,
        state := { m.state with
          locked_properties :=
            properties.foldl addIfAbsent m.state.locked_properties } },
     { success := true, lockId := some lockId })

/-- `SharedStateManager.releaseLock(lockId)`. -/
def Manager.releaseLock (m : Manager) (lockId : Nat) : Manager × Bool :=
  match m.locks.find? (fun l => l.id = lockId) with
  | none => (m, false)
  | some lock =>
    ({ m with
        locks := m.locks.filter (fun l => l.id ≠ lockId),
        state := { m.state with
          locked_properties :=
            m.state.locked_properties.filter (fun p => p ∉ lock.properties) } },
     true)

/-- Release the locks with the given ids in order (ignoring results), as the
pending `setTimeout` callbacks do. -/
def Manager.releaseAll (m : Manager) (ids : List Nat) : Manager :=
  ids.foldl (fun acc id => (acc.releaseLock id).1) m

/-- Run every pending `setTimeout` auto-release whose deadline
(`lock.expiresAt`) has passed by `now`.  An auto-release whose lock was
already released (or cleared by a rollback) is a no-op, exactly as the
source's `releaseLock` is for an unknown id. -/
def Manager.fireTimers (m : Manager) (now : Int) : Manager :=
  m.releaseAll ((m.locks.filter (fun l => l.expiresAt ≤ now)).map Lock.id)

/-- `SharedStateManager.rollbackToVersion(version)`: restore the first
snapshot with that exact version, clearing the lock table first.  Note the
restored state carries the snapshot's own `locked_properties`. -/
def Manager.rollbackToVersion (m : Manager) (version : Nat) : Manager × Bool :=
  match m.snapshots.find? (fun s => s.version = version) with
  | none => (m, false)
  | some snapshot =>
    ({ m with locks := [], state := snapshot.state }, true)

/-! ## The duplicate store: `SharedDesignState`
(services/cohesion/agentCommunicationProtocol.ts)

Its `updateState` guards staleness with the JS-truthy test
`if (expectedVersion && expectedVersion !== this.version)`, so an
`expectedVersion` of `0` (falsy) skips the version check entirely. -/

/-- One entry of `SharedDesignState`'s `history`. -/
structure SDChange where
  agent : String
  timestamp : Int
  previousState : Js
  newState : Js
  updates : Js

/-- The mutable fields of `SharedDesignState`.  The design-state value
itself is opaque (`Js`). -/
structure SDState where
  state : Js
  history : List SDChange
  version : Nat

/-- The `SharedDesignState` constructor (its `initializeState` body is not
in the repository; the state value is opaque here and irrelevant to the
claims — only `version := 0` matters). -/
def SDState.init (s0 : Js) : SDState :=
  { state := s0, history := [], version := 0 }

/-- Result record of `SharedDesignState.updateState`. -/
structure SDResult where
  success : Bool
  conflict : Option Bool := none
  currentVersion : Option Nat := none
  suggestion : Option String := none
  newVersion : Option Nat := none
deriving Repr, DecidableEq

/-- JS truthiness of a number-typed optional parameter:
`undefined` and `0` are falsy. -/
def truthyNat : Option Nat → Bool
  | none => false
  | some n => n != 0

/-- `SharedDesignState.updateState(agentName, updates, expectedVersion)`.

The version guard and the success path (history push, `this.version++`) are
translated from the source.  Modelled from the spec: the helpers
`validateUpdates`, `applyStateUpdates`, `cloneState`, the internal
`acquireLock`/`releaseLock` pair and `notifyStateChange` are referenced by
the source but not defined anywhere in the repository; per the spec's
`transact` contract a transaction that passes the version check applies its
updates and increments the version, so `validateUpdates` always succeeds and
`applyStateUpdates` is an opaque function argument. -/
def SDState.updateState (s : SDState) (applyStateUpdates : Js → Js → Js)
    (agentName : String) (updates : Js) (expectedVersion : Option Nat)
    (now : Int) : SDState × SDResult :=
  -- `if (expectedVersion && expectedVersion !== this.version)`
  if truthyNat expectedVersion ∧ expectedVersion.any (fun ev => ev != s.version) then
    (s, { success := false, conflict := some true,
          currentVersion := some s.version,
          suggestion := some "Refresh state and retry" })
  else
    let previousState := s.state
    let newState := applyStateUpdates s.state updates
    let s' : SDState :=
      { state := newState
        history := s.history ++
          [{ agent := agentName, timestamp := now,
             previousState := previousState, newState := newState,
             updates := updates }]
        version := s.version + 1 }
    (s', { success := true, newVersion := some s'.version })

/-! ## The cohesion coordinator
(services/cohesion/cohesionCoordinator.ts)

The three validation rules, conflict detection and final validation are
translated below.  Numbers are exact rationals: every numeral the source
uses (0.75, 1.5, table entries, dimension values) is exactly representable
in the JS float64 arithmetic the source performs, and the only operations
are comparisons and one division, so the `Rat` model is exact.  The
`message` strings of rule results are omitted: no modelled operation or
claim reads them.
-/

/-- `FurnitureDesign.dimensions` (the fields the coordinator reads). -/
structure Dimensions where
  width : Option Rat := none
  height : Option Rat := none
  depth : Option Rat := none
deriving Repr, DecidableEq

/-- The slice of `Partial<FurnitureDesign>` the coordinator's rules read
and write. -/
structure Design where
  furniture_type : Option String := none
  dimensions : Option Dimensions := none
  boardThickness : Option Rat := none
  materials : Option (List String) := none
  joinery : Option (List String) := none
  features : Option (List String) := none
deriving Repr, DecidableEq

/-- JS `x || dflt` on an optional number: `undefined` and `0` are falsy. -/
def jsOrRat (v : Option Rat) (dflt : Rat) : Rat :=
  match v with
  | some x => if x = 0 then dflt else x
  | none => dflt

/-- JS `x || dflt` on an optional string: `undefined` and `""` are falsy. -/
def jsOrStr (v : Option String) (dflt : String) : String :=
  match v with
  | some x => if x = "" then dflt else x
  | none => dflt

/-- `CohesionCoordinator.calculateMaxSpan(material, thickness)`: the
coordinator's own span table has rows only for pine, oak and plywood; any
other material (mdf included) falls back to the pine row
(`spanTable[material] || spanTable.pine`), and an unknown thickness to 24
(`materialData[thickness] || 24`). -/
def calculateMaxSpan (material : String) (thickness : Rat) : Rat :=
  let materialData : List (Rat × Rat) :=
    if material = "pine" then [(0.75, 24), (1.5, 36), (2, 48)]
    else if material = "oak" then [(0.75, 30), (1.5, 42), (2, 54)]
    else if material = "plywood" then [(0.75, 22), (1.5, 32), (2, 42)]
    else [(0.75, 24), (1.5, 36), (2, 48)]
  match getKey materialData thickness with
  | some s => s
  | none => 24

/-- `CohesionCoordinator.calculateJointStrength(joint, material)`
(`strengthTable[joint]?.[material] || 300`). -/
def calculateJointStrength (joint : String) (material : String) : Rat :=
  let strengthTable : List (String × List (String × Rat)) :=
    [("mortise_tenon", [("pine", 800), ("oak", 1200)]),
     ("dovetail", [("pine", 700), ("oak", 1000)]),
     ("dowel", [("pine", 500), ("oak", 700)]),
     ("pocket_hole", [("pine", 400), ("oak", 600)]),
     ("screw", [("pine", 300), ("oak", 400)])]
  match (getKey strengthTable joint).bind (fun row => getKey row material) with
  | some s => s
  | none => 300

/-- `CohesionCoordinator.estimateLoad(design)`
(`typeLoads[design.furniture_type || ''] || 100`). -/
def estimateLoad (design : Design) : Rat :=
  let typeLoads : List (String × Rat) :=
    [("bookshelf", 150), ("table", 100), ("chair", 250), ("cabinet", 200),
     ("nightstand", 50)]
  match getKey typeLoads (jsOrStr design.furniture_type "") with
  | some s => s
  | none => 100

/-- `CohesionCoordinator.getStrongerJoint(currentJoint)`; `indexOf` on a
missing joint yields -1, so an unknown joint steps to `screw`. -/
def getStrongerJoint (currentJoint : Option String) : String :=
  let jointHierarchy := ["screw", "pocket_hole", "dowel", "dovetail", "mortise_tenon"]
  let currentIndex : Int :=
    match jointHierarchy.indexOf? (jsOrStr currentJoint "screw") with
    | some i => (i : Int)
    | none => -1
  jointHierarchy.getD (min (currentIndex + 1) 4).toNat "mortise_tenon"

/-- The outcome of a rule's `validate` closure: its `valid` flag and the
design its `fix` closure produces (every rule of the source supplies a
fix; `message` omitted, see the section comment). -/
structure RuleResult where
  valid : Bool
  fix : Design

/-- A coordinator validation rule. -/
structure Rule where
  name : String
  applies : Design → Bool
  validate : Design → RuleResult

/-- The empty JS object in `dimensions` position (`{...undefined}`). -/
def emptyDimensions : Dimensions := {}

/-- Rule 1, `shelf_deflection`. -/
def shelfDeflectionRule : Rule :=
  { name := "shelf_deflection"
    applies := fun design =>
      jsOrStr design.furniture_type "" ∈ ["shelf", "bookshelf"]
    validate := fun design =>
      let span := jsOrRat (design.dimensions.bind (·.width)) 0
      let thickness := jsOrRat design.boardThickness 0.75
      let material := jsOrStr (design.materials.bind (·.head?)) "pine"
      let maxSpan := calculateMaxSpan material thickness
      let dims := design.dimensions.getD emptyDimensions
      { valid := span ≤ maxSpan
        fix := { design with
          dimensions := some { dims with width := some maxSpan } } } }

/-- Rule 2, `joint_strength`. -/
def jointStrengthRule : Rule :=
  { name := "joint_strength"
    applies := fun _ => true
    validate := fun design =>
      let estimatedLoad := estimateLoad design
      let jointStrength := calculateJointStrength
        (jsOrStr (design.joinery.bind (·.head?)) "screw")
        (jsOrStr (design.materials.bind (·.head?)) "pine")
      let safetyFactor := jointStrength / estimatedLoad
      { valid := safetyFactor ≥ 2
        fix := { design with
          joinery := some [getStrongerJoint (design.joinery.bind (·.head?))] } } }

/-- Rule 3, `stability`.  Inside `validate`, `base` cannot be 0 because the
`|| 1` fallbacks replace both 0 and `undefined`; `height / base` is
therefore an ordinary rational division. -/
def stabilityRule : Rule :=
  { name := "stability"
    applies := fun design => jsOrRat (design.dimensions.bind (·.height)) 0 > 48
    validate := fun design =>
      let height := jsOrRat (design.dimensions.bind (·.height)) 0
      let base := min (jsOrRat (design.dimensions.bind (·.width)) 1)
        (jsOrRat (design.dimensions.bind (·.depth)) 1)
      let ratio := height / base
      { valid := ratio < 4
        fix := { design with
          features := some ((design.features.getD []) ++ ["anti-tip hardware"]) } } }

/-- `initializeValidationRules()`: the three rules in registration order. -/
def validationRules : List Rule :=
  [shelfDeflectionRule, jointStrengthRule, stabilityRule]

/-- `CompatibilityMatrix.matrix`. -/
def compatibilityMatrix : List (String × List String) :=
  [("pine", ["screw", "pocket_hole", "dowel", "mortise_tenon"]),
   ("oak", ["dowel", "dovetail", "mortise_tenon"]),
   ("plywood", ["screw", "pocket_hole", "biscuit"]),
   ("mdf", ["screw", "pocket_hole"])]

/-- `CompatibilityMatrix.isCompatible(material, joint)`. -/
def isCompatible (material joint : String) : Bool :=
  match getKey compatibilityMatrix material with
  | some joints => joint ∈ joints
  | none => false

/-- `CompatibilityMatrix.getBestJoint(material)`: the last entry of the
material's row, else `screw`. -/
def getBestJoint (material : String) : String :=
  match getKey compatibilityMatrix material with
  | some joints => joints.getLastD "screw"
  | none => "screw"

inductive Severity where
  | low
  | medium
  | high
deriving Repr, DecidableEq

/-- A detected `Conflict` (type name, severity, and the design produced by
its `fix` closure when one is attached). -/
structure DesignConflict where
  type : String
  severity : Severity
  fix : Option Design
deriving Repr, DecidableEq

/-- `CohesionCoordinator.detectConflicts(design)`: every failing applicable
rule yields a high-severity conflict carrying the rule's fix, then the
material/joinery compatibility check may add a medium one. -/
def detectConflicts (design : Design) : List DesignConflict :=
  let ruleConflicts := validationRules.foldl (fun acc rule =>
    if rule.applies design then
      let result := rule.validate design
      if ¬ result.valid then
        acc ++ [{ type := rule.name, severity := .high, fix := some result.fix }]
      else acc
    else acc) []
  -- `if (design.materials?.length && design.joinery?.length)`
  if (design.materials.getD []) ≠ [] ∧ (design.joinery.getD []) ≠ [] then
    let material := (design.materials.getD []).headD ""
    let joint := (design.joinery.getD []).headD ""
    if ¬ isCompatible material joint then
      ruleConflicts ++
        [{ type := "material_joinery_mismatch", severity := .medium,
           fix := some { design with joinery := some [getBestJoint material] } }]
    else ruleConflicts
  else ruleConflicts

/-- `CohesionCoordinator.validateCompleteDesign(design)` (its `issues` and
`recommendations` are message strings, omitted). -/
structure ValidationSummary where
  isValid : Bool
  score : Rat
deriving Repr, DecidableEq

def validateCompleteDesign (design : Design) : ValidationSummary :=
  let isValid := validationRules.foldl (fun acc rule =>
    if rule.applies design then acc && (rule.validate design).valid else acc) true
  { isValid := isValid, score := if isValid then 1 else 0.5 }

/-- `FurnitureKnowledgeGraph.initializeSpanTables()` (unnamed source file,
`part_000`): max shelf span by thickness and material.  This is the
engineering table the spec quotes (mdf at 0.75 inch ↦ 20); note the
coordinator's `calculateMaxSpan` above does *not* consult it. -/
def kgSpanTable (thickness : String) (material : String) : Option Nat :=
  let tables : List (String × List (String × Nat)) :=
    [("0.75", [("pine", 26), ("oak_red", 30), ("maple_hard", 32),
               ("plywood_birch", 24), ("mdf", 20), ("particle_board", 16)]),
     ("1", [("pine", 34), ("oak_red", 40), ("maple_hard", 42),
            ("plywood_birch", 32), ("mdf", 26), ("particle_board", 22)]),
     ("1.5", [("pine", 52), ("oak_red", 60), ("maple_hard", 64),
              ("plywood_birch", 48), ("mdf", 40), ("particle_board", 32)]),
     ("2", [("pine", 68), ("oak_red", 80), ("maple_hard", 84),
            ("plywood_birch", 64), ("mdf", 52), ("particle_board", 44)])]
  (getKey tables thickness).bind (fun row => getKey row material)

/-! ## The message bus
(services/communication/AgentCommunicationBus.ts)

Asynchronous queries are modelled by oracles: each agent's answer to the
(identical, hence cached) vote query is a fixed `Option String`
(`none` = no response / no `choice` field — the `catch` skips the vote),
and each validator's query outcome is a fixed `Except`
(`error` = the query call threw synchronously, which only `addToQueue`'s
queue-full guard does; `ok` = whatever value the promise resolved with,
including `query`'s internal fallbacks). -/

/-- `resolveConflict`'s inline priority table (`priorities[agent] || 0`;
`style_agent` is listed with priority 0, which coincides with the
default). -/
def priorities (agent : String) : Nat :=
  if agent = "validation_agent" then 3
  else if agent = "material_agent" then 2
  else if agent = "dimension_agent" then 2
  else if agent = "joinery_agent" then 1
  else 0

/-- `votes.get(key) || 0`. -/
def getVotes (votes : List (Option String × Nat)) (key : Option String) : Nat :=
  (getKey votes key).getD 0

/-- One outer-loop iteration of `resolveByVoting` for the round of
`(proposer, proposal)`: reset this proposal's tally
(`votes.set(JSON.stringify(proposal), 0)`), then every agent except the
proposer contributes its (cached) vote; a vote's `choice` is looked up as a
key of the proposals map (`conflict.proposals.get(vote.choice)`), and a
choice that is no proposer's name lands on the `JSON.stringify(undefined)`
key, modelled as the `none` key. -/
def votingRound (agents : List String) (proposals : List (String × String))
    (vote : String → Option String) (votes : List (Option String × Nat))
    (round : String × String) : List (Option String × Nat) :=
  let votes1 := setKey votes (some round.2) 0
  agents.foldl (fun vs a =>
    if a = round.1 then vs
    else match vote a with
      | some choice =>
        let key := (getKey proposals choice)
        setKey vs key (getVotes vs key + 1)
      | none => vs) votes1

/-- `AgentCommunicationBus.resolveByVoting(conflict)` with the vote oracle.
The winner scan keeps the first entry whose count strictly exceeds all
earlier ones; `return winner || first` also falls back to the first
proposal when the winning value is falsy (the empty string).  A winning
`none` key would make the source throw inside `JSON.parse`; it is modelled
as `none` and unreachable when every cast vote names a proposer. -/
def resolveByVoting (agents : List String)
    (proposals : List (String × String)) (vote : String → Option String) :
    Option String :=
  let votes := proposals.foldl (votingRound agents proposals vote) []
  let winner := (votes.foldl
    (fun (acc : Nat × Option (Option String)) kv =>
      if kv.2 > acc.1 then (kv.2, some kv.1) else acc) (0, none)).2
  match winner with
  | some (some p) => if p = "" then proposals.head?.map (·.2) else some p
  | some none => none
  | none => proposals.head?.map (·.2)

/-- `AgentCommunicationBus.resolveConflict(conflict)`: voting when more
than two agents are involved, otherwise the inline priority scan (the
first proposal with a strictly higher priority than all before it wins;
`bestProposal` stays `null` only when there are no proposals). -/
def resolveConflict (agents : List String)
    (proposals : List (String × String)) (vote : String → Option String) :
    Option String :=
  if agents.length > 2 then resolveByVoting agents proposals vote
  else
    (proposals.foldl (fun (acc : Option String × Int) ap =>
      if (priorities ap.1 : Int) > acc.2 then (some ap.2, (priorities ap.1 : Int))
      else acc) (none, -1)).1

/-- Modelled from the spec: "a voting round (each uninvolved worker casts
one vote among candidate proposals) ... ties fall back to the first
proposal submitted".  Each worker casts exactly one vote (not for its own
proposal); the proposal with the unique strictly greatest tally wins; a
tie, or no votes at all, falls back to the first proposal submitted.  Used
only to compare the spec's description against `resolveByVoting`. -/
def specVotingResolve (agents : List String)
    (proposals : List (String × String)) (vote : String → Option String) :
    Option String :=
  match proposals.head? with
  | none => none
  | some first =>
    let tally := proposals.map (fun pr =>
      (pr.2, agents.countP (fun a => a ≠ pr.1 ∧ vote a = some pr.1)))
    let maxv := (tally.map (·.2)).foldl max 0
    if maxv = 0 then some first.2
    else match tally.filter (fun t => t.2 = maxv) with
      | [t] => some t.1
      | _ => some first.2

/-- A validation issue of a synthesized failure result. -/
structure VIssue where
  type : String
  severity : String
  message : String
  affected_component : String
  fix_available : Bool
deriving Repr, DecidableEq

/-- A `ValidationResult` as collected by `requestValidation`. -/
structure VRes where
  valid : Bool
  score : Rat
  issues : List VIssue
  warnings : List String
  suggestions : List String
deriving Repr, DecidableEq

/-- The synthesized failure result `requestValidation` substitutes when a
validator's query throws. -/
def synthFailure (agentName : String) (errMsg : String) : VRes :=
  { valid := false
    score := 0
    issues := [{ type := "validation_error", severity := "high",
                 message := "Validation failed: " ++ errMsg,
                 affected_component := agentName, fix_available := false }]
    warnings := []
    suggestions := [] }

/-- `AgentCommunicationBus.requestValidation(design, validators)`: one
query per named validator; an unregistered name contributes `null`
(`if (!agent) return null`) and is dropped when the results are compiled,
a throwing query contributes the synthesized failure result. -/
def requestValidation (registered : List String)
    (queryOutcome : String → Except String VRes) (validators : List String) :
    List (String × VRes) :=
  validators.foldl (fun results agentName =>
    if agentName ∈ registered then
      match queryOutcome agentName with
      | .ok r => setKey results agentName r
      | .error e => setKey results agentName (synthFailure agentName e)
    else results) []

/-- An entry of the bus's internal message queue (`MessageQueueItem`; the
message itself and the deferred promise carry nothing the queue-bound
claims read, so the message is opaque). -/
structure QueueItem where
  message : Js
  priority : Nat
  timestamp : Int
  retries : Nat

def MAX_RETRIES : Nat := 3
def MAX_QUEUE_SIZE : Nat := 1000

/-- A plain queue entry used by concrete witnesses. -/
def nullQueueItem : QueueItem :=
  { message := Js.null, priority := 1, timestamp := 0, retries := 0 }

/-- `AgentCommunicationBus.addToQueue(message, priority)`: reject with
`Message queue is full` before enqueueing anything once the queue holds
`MAX_QUEUE_SIZE` entries. -/
def addToQueue (q : List QueueItem) (message : Js) (priority : Nat)
    (now : Int) : Except String (List QueueItem) :=
  if q.length ≥ MAX_QUEUE_SIZE then
    .error "Message queue is full"
  else
    .ok (q ++ [{ message := message, priority := priority, timestamp := now,
                 retries := 0 }])

/-- The queue comparator of `startQueueProcessor`: higher priority first,
older first among equal priorities. -/
def queueLE (a b : QueueItem) : Bool :=
  if a.priority ≠ b.priority then b.priority < a.priority
  else a.timestamp ≤ b.timestamp

/-- One tick of `startQueueProcessor`: sort, splice off up to 10 items and
process them; a failing dispatch with `retries < MAX_RETRIES` is re-pushed
with its retry count incremented, anything else leaves the queue.  Which
dispatches fail is an oracle. -/
def processTick (q : List QueueItem) (fails : QueueItem → Bool) :
    List QueueItem :=
  let sorted := q.mergeSort queueLE
  (sorted.take 10).foldl (fun acc item =>
    if fails item ∧ item.retries < MAX_RETRIES then
      acc ++ [{ item with retries := item.retries + 1 }]
    else acc) (sorted.drop 10)

/-! ## Concrete scenarios and run helpers used by the theorems -/

/-- One `updateState` call (its arguments plus the wall-clock instant). -/
structure Op where
  agent : String
  updates : StateUpdate
  expectedVersion : Option Nat
  now : Int

/-- Run a sequence of `updateState` calls, collecting each call's
`success` flag. -/
def runOps : Manager → List Op → Manager × List Bool
  | m, [] => (m, [])
  | m, op :: rest =>
    let r := m.updateState op.agent op.updates op.expectedVersion op.now
    let rec' := runOps r.1 rest
    (rec'.1, r.2.success :: rec'.2)

/-- All dotted property paths an update touches (the paths
`getLockedProperties` inspects). -/
def touchedPaths (u : StateUpdate) : List String :=
  u.toJs.foldl (fun acc kv => acc ++ allPaths kv.1 kv.2) []

/-- A design write `{design: {width: 30}}`. -/
def designWidthUpdate : StateUpdate :=
  { design := some [("width", Js.num 30)] }

/-- The store right after `dimension_agent` acquired a lock on
`design.width` at time 0 (so the lock expires at 5000). -/
def lockedManager : Manager :=
  (Manager.init.acquireLock "dimension_agent" ["design.width"] 0).1

/-- The store after nine accepted empty transactions (version 9, so the
next accepted transaction reaches version 10 and triggers a snapshot). -/
def nineUpdates : Manager :=
  (runOps Manager.init (List.replicate 9 ⟨"worker_a", {}, none, 0⟩)).1

/-- Spec §8 scenario A after both worker proposals are merged:
`{type: "bookshelf"}` ∪ `{width:48, height:72, depth:12}` ∪
`{materials:["mdf"], boardThickness:0.75}`. -/
def scenarioABookshelf : Design :=
  { furniture_type := some "bookshelf"
    dimensions := some { width := some 48, height := some 72, depth := some 12 }
    materials := some ["mdf"]
    boardThickness := some 0.75 }

/-- A three-party conflict: each of the three agents submitted a proposal. -/
def conflictProposals : List (String × String) :=
  [("dimension_agent", "A"), ("material_agent", "B"), ("joinery_agent", "C")]

def conflictAgents : List String :=
  ["dimension_agent", "material_agent", "joinery_agent"]

/-- The (cached) vote of each agent: the dimension and material agents
choose the joinery agent's proposal, the joinery agent chooses the
dimension agent's. -/
def conflictVotes : String → Option String := fun a =>
  if a = "dimension_agent" then some "joinery_agent"
  else if a = "material_agent" then some "joinery_agent"
  else if a = "joinery_agent" then some "dimension_agent"
  else none

mutual

/-- `checkPath` returns exactly the visited paths that are locked. -/
theorem checkPath_eq_filter (locked : List String) (path : String) (v : Js) :
    checkPath locked path v = (allPaths path v).filter (fun p => decide (p ∈ locked)) := by
  cases v with
  | obj fields =>
    rw [checkPath, allPaths, List.filter_cons,
      checkPathFields_eq_filter locked path fields]
    by_cases h : path ∈ locked <;> simp [h]
  | num q => simp only [checkPath, allPaths]; by_cases h : path ∈ locked <;> simp [h]
  | str s => simp only [checkPath, allPaths]; by_cases h : path ∈ locked <;> simp [h]
  | bool b => simp only [checkPath, allPaths]; by_cases h : path ∈ locked <;> simp [h]
  | null => simp only [checkPath, allPaths]; by_cases h : path ∈ locked <;> simp [h]

/-- `checkPathFields` returns exactly the visited paths that are locked. -/
theorem checkPathFields_eq_filter (locked : List String) (path : String)
    (fs : List (String × Js)) :
    checkPathFields locked path fs =
      (allPathsFields path fs).filter (fun p => decide (p ∈ locked)) := by
  cases fs with
  | nil => rw [checkPathFields, allPathsFields]; simp
  | cons kv rest =>
    obtain ⟨k, v⟩ := kv
    rw [checkPathFields, allPathsFields, List.filter_append,
      checkPath_eq_filter locked (path ++ "." ++ k) v,
      checkPathFields_eq_filter locked path rest]

end

/-! ## Helper lemmas -/

/-- Lookup after `setKey`. -/
theorem getKey_setKey {κ β : Type} [DecidableEq κ] (l : List (κ × β))
    (k k' : κ) (v : β) :
    getKey (setKey l k v) k' = if k' = k then some v else getKey l k' := by
  induction l with
  | nil =>
    by_cases h : k' = k
    · subst h; simp [setKey, getKey, List.find?]
    · simp [setKey, getKey, List.find?, h, Ne.symm h]
  | cons kv rest ih =>
    obtain ⟨k0, v0⟩ := kv
    by_cases h0 : k0 = k
    · subst h0
      by_cases h : k' = k0
      · subst h; simp [setKey, getKey, List.find?]
      · simp [setKey, getKey, List.find?, h, Ne.symm h]
    · by_cases h : k' = k0
      · subst h
        simp [setKey, getKey, List.find?, h0]
      · simpa [setKey, getKey, List.find?, h0, h, Ne.symm h] using ih

/-- Members of `setKey l k v` are members of `l` or the new pair. -/
theorem mem_setKey {κ β : Type} [DecidableEq κ] {l : List (κ × β)}
    {k : κ} {v : β} {kv : κ × β} (h : kv ∈ setKey l k v) :
    kv ∈ l ∨ kv = (k, v) := by
  induction l with
  | nil => simpa [setKey] using h
  | cons kv0 rest ih =>
    obtain ⟨k0, v0⟩ := kv0
    by_cases h0 : k0 = k
    · subst h0
      rcases (by simpa [setKey] using h : kv = (k0, v) ∨ kv ∈ rest) with h1 | h1
      · exact Or.inr h1
      · exact Or.inl (List.mem_cons_of_mem _ h1)
    · rcases (by simpa [setKey, h0] using h : kv = (k0, v0) ∨ kv ∈ setKey rest k v)
        with h1 | h1
      · exact Or.inl (by simp [h1])
      · rcases ih h1 with h2 | h2
        · exact Or.inl (List.mem_cons_of_mem _ h2)
        · exact Or.inr h2

/-- Pull the accumulator out of an append-fold. -/
theorem foldl_append_out {α β : Type} (f : α → List β) :
    ∀ (l : List α) (acc : List β),
      l.foldl (fun a x => a ++ f x) acc = acc ++ l.foldl (fun a x => a ++ f x) [] := by
  intro l
  induction l with
  | nil => simp
  | cons x rest ih =>
    intro acc
    rw [List.foldl_cons, List.foldl_cons, ih (acc ++ f x), ih ([] ++ f x)]
    simp

/-- A guarded append-fold that never fires leaves its accumulator alone. -/
theorem foldl_guard_append_eq {α β : Type} (c : α → Prop) [DecidablePred c]
    (g : α → β) :
    ∀ (l : List α) (acc : List β), (∀ x ∈ l, ¬ c x) →
      l.foldl (fun a x => if c x then a ++ [g x] else a) acc = acc := by
  intro l
  induction l with
  | nil => intro acc _; rfl
  | cons x rest ih =>
    intro acc h
    rw [List.foldl_cons, if_neg (h x (by simp))]
    exact ih acc (fun y hy => h y (by simp [hy]))

/-- An append-fold of empty pieces leaves its accumulator alone. -/
theorem foldl_append_nil {α β : Type} (f : α → List β) :
    ∀ (l : List α) (acc : List β), (∀ x ∈ l, f x = []) →
      l.foldl (fun a x => a ++ f x) acc = acc := by
  intro l
  induction l with
  | nil => intro acc _; rfl
  | cons x rest ih =>
    intro acc h
    rw [List.foldl_cons, h x (by simp), List.append_nil]
    exact ih acc (fun y hy => h y (by simp [hy]))

/-- The lock check is the locked-membership filter of the touched paths. -/
theorem getLockedProperties_eq_filter (m : Manager) (u : StateUpdate) :
    m.getLockedProperties u =
      (touchedPaths u).filter
        (fun p => decide (p ∈ m.state.locked_properties)) := by
  unfold Manager.getLockedProperties touchedPaths
  generalize u.toJs = l
  induction l with
  | nil => simp
  | cons kv rest ih =>
    rw [List.foldl_cons, List.foldl_cons,
      foldl_append_out _ rest (([] : List String) ++ checkPath _ kv.1 kv.2),
      foldl_append_out _ rest (([] : List String) ++ allPaths kv.1 kv.2), ih]
    simp [checkPath_eq_filter]

/-- The stale-version rejection branch of `updateState`. -/
theorem updateState_version_reject (m : Manager) (a : String) (u : StateUpdate)
    (ev : Option Nat) (now : Int)
    (h : ev.any (fun e => e != m.state.version) = true) :
    m.updateState a u ev now =
      (m, { success := false, newVersion := m.state.version,
            conflicts :=
              some ["Version mismatch - state has been updated by another agent"] }) := by
  rw [Manager.updateState, if_pos h]

/-- The locked-property rejection branch of `updateState`. -/
theorem updateState_lock_reject (m : Manager) (a : String) (u : StateUpdate)
    (ev : Option Nat) (now : Int)
    (h : ev.any (fun e => e != m.state.version) = false)
    (h2 : m.getLockedProperties u ≠ []) :
    m.updateState a u ev now =
      (m, { success := false, newVersion := m.state.version,
            conflicts := some ((m.getLockedProperties u).map
              (fun p => "Property " ++ p ++ " is locked")) }) := by
  rw [Manager.updateState, if_neg (by simp [h]), if_pos h2]

/-- The success branch of `updateState`: accepted, version bumped by one,
and a snapshot appended exactly when the new version is divisible by 10. -/
theorem updateState_success_parts (m : Manager) (a : String) (u : StateUpdate)
    (ev : Option Nat) (now : Int)
    (h : ev.any (fun e => e != m.state.version) = false)
    (h2 : m.getLockedProperties u = []) :
    ((m.updateState a u ev now).2.success = true)
    ∧ ((m.updateState a u ev now).2.newVersion = m.state.version + 1)
    ∧ ((m.updateState a u ev now).1.state.version = m.state.version + 1)
    ∧ ((m.updateState a u ev now).1.snapshots =
        if (m.state.version + 1) % 10 = 0 then
          (let snaps := m.snapshots ++
            [{ version := m.state.version + 1, timestamp := now,
               state := (m.updateState a u ev now).1.state }]
           if snaps.length > MAX_HISTORY_SIZE then takeLast MAX_HISTORY_SIZE snaps
           else snaps)
        else m.snapshots) := by
  rw [Manager.updateState, if_neg (by simp [h]), if_neg (by simp [h2])]
  refine ⟨rfl, rfl, ?_, ?_⟩ <;>
    by_cases h10 : (m.state.version + 1) % 10 = 0 <;>
      simp [h10, Manager.saveSnapshot]

/-- `updateState` succeeds exactly when neither rejection branch fires. -/
theorem updateState_success_iff (m : Manager) (a : String) (u : StateUpdate)
    (ev : Option Nat) (now : Int) :
    (m.updateState a u ev now).2.success = true ↔
      (ev.any (fun e => e != m.state.version) = false
        ∧ m.getLockedProperties u = []) := by
  by_cases h : ev.any (fun e => e != m.state.version) = true
  · rw [updateState_version_reject m a u ev now h]
    simp [h]
  · have h' : ev.any (fun e => e != m.state.version) = false := by
      simpa using h
    by_cases h2 : m.getLockedProperties u = []
    · simpa [h', h2] using (updateState_success_parts m a u ev now h' h2).1
    · rw [updateState_lock_reject m a u ev now h' h2]
      simp [h', h2]

/-- A rejected `updateState` leaves the manager untouched. -/
theorem updateState_reject_unchanged (m : Manager) (a : String)
    (u : StateUpdate) (ev : Option Nat) (now : Int)
    (h : (m.updateState a u ev now).2.success = false) :
    (m.updateState a u ev now).1 = m := by
  by_cases h1 : ev.any (fun e => e != m.state.version) = true
  · rw [updateState_version_reject m a u ev now h1]
  · have h1' : ev.any (fun e => e != m.state.version) = false := by simpa using h1
    by_cases h2 : m.getLockedProperties u = []
    · exact absurd ((updateState_success_parts m a u ev now h1' h2).1)
        (by simp [h])
    · rw [updateState_lock_reject m a u ev now h1' h2]

/-- `releaseLock` never changes the version. -/
theorem releaseLock_version (m : Manager) (id : Nat) :
    (m.releaseLock id).1.state.version = m.state.version := by
  unfold Manager.releaseLock
  cases m.locks.find? (fun l => l.id = id) <;> rfl

/-- `releaseLock` keeps only locks of the original table. -/
theorem releaseLock_locks_subset (m : Manager) (id : Nat) {l : Lock}
    (h : l ∈ (m.releaseLock id).1.locks) : l ∈ m.locks := by
  unfold Manager.releaseLock at h
  cases hf : m.locks.find? (fun l' => l'.id = id) <;> rw [hf] at h
  · exact h
  · exact (List.mem_filter.mp h).1

/-- `releaseLock` keeps only locked properties of the original set. -/
theorem releaseLock_lp_subset (m : Manager) (id : Nat) {p : String}
    (h : p ∈ (m.releaseLock id).1.state.locked_properties) :
    p ∈ m.state.locked_properties := by
  unfold Manager.releaseLock at h
  cases hf : m.locks.find? (fun l' => l'.id = id) <;> rw [hf] at h
  · exact h
  · exact (List.mem_filter.mp h).1

/-- `releaseAll` on a cons of ids. -/
theorem releaseAll_cons (m : Manager) (id : Nat) (ids : List Nat) :
    m.releaseAll (id :: ids) = (m.releaseLock id).1.releaseAll ids := rfl

/-- `releaseAll` never changes the version. -/
theorem releaseAll_version (ids : List Nat) :
    ∀ (m : Manager), (m.releaseAll ids).state.version = m.state.version := by
  induction ids with
  | nil => intro m; rfl
  | cons id rest ih =>
    intro m
    rw [releaseAll_cons, ih, releaseLock_version]

/-- `releaseAll` keeps only locks of the original table. -/
theorem releaseAll_locks_subset (ids : List Nat) :
    ∀ (m : Manager) {l : Lock}, l ∈ (m.releaseAll ids).locks → l ∈ m.locks := by
  induction ids with
  | nil => intro m l h; exact h
  | cons id rest ih =>
    intro m l h
    rw [releaseAll_cons] at h
    exact releaseLock_locks_subset m id (ih _ h)

/-- `releaseAll` keeps only locked properties of the original set. -/
theorem releaseAll_lp_subset (ids : List Nat) :
    ∀ (m : Manager) {p : String},
      p ∈ (m.releaseAll ids).state.locked_properties →
        p ∈ m.state.locked_properties := by
  induction ids with
  | nil => intro m p h; exact h
  | cons id rest ih =>
    intro m p h
    rw [releaseAll_cons] at h
    exact releaseLock_lp_subset m id (ih _ h)

/-- After `releaseAll`, no surviving lock carries a released id. -/
theorem releaseAll_id_eliminated (ids : List Nat) :
    ∀ (m : Manager) (id : Nat), id ∈ ids →
      ∀ l ∈ (m.releaseAll ids).locks, l.id ≠ id := by
  induction ids with
  | nil => intro m id h; simp at h
  | cons i rest ih =>
    intro m id hid l hl
    by_cases h : id ∈ rest
    · exact ih _ id h l (by rwa [releaseAll_cons] at hl)
    · have hidi : id = i := by
        rcases List.mem_cons.mp hid with h1 | h1
        · exact h1
        · exact absurd h1 h
      subst hidi
      rw [releaseAll_cons] at hl
      have hl1 := releaseAll_locks_subset rest _ hl
      unfold Manager.releaseLock at hl1
      cases hf : m.locks.find? (fun l' => l'.id = id) <;> rw [hf] at hl1
      · intro hcontra
        have := List.find?_eq_none.mp hf l hl1
        simp [hcontra] at this
      · simpa using (List.mem_filter.mp hl1).2

/-- Releasing a lock whose id is in `ids` removes its properties from the
locked set, provided lock ids are unique. -/
theorem releaseAll_property_eliminated (ids : List Nat) :
    ∀ (m : Manager) (l : Lock) (p : String),
      (m.locks.map Lock.id).Nodup → l ∈ m.locks → l.id ∈ ids →
      p ∈ l.properties →
      p ∉ (m.releaseAll ids).state.locked_properties := by
  induction ids with
  | nil => intro m l p _ _ h; simp at h
  | cons i rest ih =>
    intro m l p hnodup hl hid hp
    rw [releaseAll_cons]
    by_cases hli : l.id = i
    · -- this step releases the lock `l` itself
      subst hli
      have hfind : ∃ l0, m.locks.find? (fun l' => l'.id = l.id) = some l0 := by
        have : (m.locks.find? (fun l' => l'.id = l.id)).isSome := by
          rw [List.find?_isSome]
          exact ⟨l, hl, by simp⟩
        exact Option.isSome_iff_exists.mp this
      obtain ⟨l0, hf⟩ := hfind
      have hl0mem : l0 ∈ m.locks := List.mem_of_find?_eq_some hf
      have hl0id : l0.id = l.id := by simpa using List.find?_some hf
      have hl0 : l0 = l := List.inj_on_of_nodup_map hnodup hl0mem hl hl0id
      subst hl0
      intro hmem
      have := releaseAll_lp_subset rest _ hmem
      unfold Manager.releaseLock at this
      rw [hf] at this
      simp only [List.mem_filter] at this
      exact absurd hp (by simpa using this.2)
    · -- the lock survives this step; recurse
      have hid' : l.id ∈ rest := by
        rcases List.mem_cons.mp hid with h1 | h1
        · exact absurd h1 hli
        · exact h1
      have hnodup' : (((m.releaseLock i).1.locks).map Lock.id).Nodup := by
        unfold Manager.releaseLock
        cases hf : m.locks.find? (fun l' => l'.id = i)
        · exact hnodup
        · exact List.Nodup.sublist
            (List.Sublist.map Lock.id (List.filter_sublist m.locks)) hnodup
      have hl' : l ∈ (m.releaseLock i).1.locks := by
        unfold Manager.releaseLock
        cases hf : m.locks.find? (fun l' => l'.id = i)
        · exact hl
        · exact List.mem_filter.mpr ⟨hl, by simpa using hli⟩
      exact ih _ l p hnodup' hl' hid' hp

/-- C2: from any store state, each accepted `updateState` call increments
the version by exactly one, each rejected call leaves the store untouched,
and hence after any sequence of calls the version equals the starting
version plus the number of accepted calls (fresh stores start at version
0); consecutive accepted versions are therefore consecutive integers,
never skipped and never reused. -/
theorem C2_version_counts_accepted_calls (m : Manager) (ops : List Op) :
    (Manager.init.state.version = 0)
    ∧ ((runOps m ops).1.state.version =
        m.state.version + ((runOps m ops).2.count true))
    ∧ (∀ (m' : Manager) (a : String) (u : StateUpdate) (ev : Option Nat)
        (now : Int),
        ((m'.updateState a u ev now).2.success = true →
          (m'.updateState a u ev now).1.state.version = m'.state.version + 1)
        ∧ ((m'.updateState a u ev now).2.success = false →
          (m'.updateState a u ev now).1 = m')) := by
  have step : ∀ (m' : Manager) (a : String) (u : StateUpdate) (ev : Option Nat)
      (now : Int),
      ((m'.updateState a u ev now).2.success = true →
        (m'.updateState a u ev now).1.state.version = m'.state.version + 1)
      ∧ ((m'.updateState a u ev now).2.success = false →
        (m'.updateState a u ev now).1 = m') := by
    intro m' a u ev now
    constructor
    · intro hs
      obtain ⟨h1, h2⟩ := (updateState_success_iff m' a u ev now).mp hs
      exact (updateState_success_parts m' a u ev now h1 h2).2.2.1
    · exact updateState_reject_unchanged m' a u ev now
  refine ⟨rfl, ?_, step⟩
  induction ops generalizing m with
  | nil => simp [runOps]
  | cons op rest ih =>
    rw [runOps]
    rcases hs : (m.updateState op.agent op.updates op.expectedVersion op.now).2.success with _ | _
    · have hunch := (step m op.agent op.updates op.expectedVersion op.now).2 hs
      simp only [List.count_cons, hs]
      rw [ih, hunch]
      simp
    · have hver := (step m op.agent op.updates op.expectedVersion op.now).1 hs
      simp only [List.count_cons, hs]
      rw [ih, hver]
      simp [Nat.add_assoc, Nat.add_comm 1]

/-- C2 witness: on the fresh store, of the sequence [write at expected
version 0, write at expected version 0] the first is accepted and the
second rejected, so the final version is 1; a single accepted write from
the fresh store reaches version 1. -/
theorem C2_version_counts_accepted_calls_witness :
    ((runOps Manager.init
      [⟨"worker_a", designWidthUpdate, some 0, 0⟩,
       ⟨"worker_b", designWidthUpdate, some 0, 0⟩]).1.state.version = 1)
    ∧ ((Manager.init.updateState "worker_a" designWidthUpdate none 0).1.state.version
        = 1) := by
  have h := C2_version_counts_accepted_calls Manager.init
    [⟨"worker_a", designWidthUpdate, some 0, 0⟩,
     ⟨"worker_b", designWidthUpdate, some 0, 0⟩]
  constructor
  · rw [h.2.1]; rfl
  · exact (h.2.2 Manager.init "worker_a" designWidthUpdate none 0).1 rfl

/-- C4: once every lock covering a property path has passed its
`expiresAt` (so the pending `setTimeout` auto-releases are due and run even
though no one called `releaseLock`), the path no longer excludes anyone: a
competing `updateState` by another worker touching only such paths
succeeds (given a matching — or absent — expected version), and a
competing `acquireLock` on such paths is granted.  `hcov` states that
every locked property is backed by some lock and `hnodup` that lock ids
are unique; both hold in every store reachable from `init`. -/
theorem C4_expired_lock_stops_excluding
    (m : Manager) (now : Int) (b : String) (u : StateUpdate)
    (ev : Option Nat) (paths : List String)
    (hnodup : (m.locks.map Lock.id).Nodup)
    (hcov : ∀ p ∈ m.state.locked_properties, ∃ l ∈ m.locks, p ∈ l.properties)
    (hexpU : ∀ l ∈ m.locks, (∃ p ∈ touchedPaths u, p ∈ l.properties) →
      l.expiresAt ≤ now)
    (hexpP : ∀ l ∈ m.locks, (∃ p ∈ paths, p ∈ l.properties) →
      l.expiresAt ≤ now)
    (hv : ev = none ∨ ev = some m.state.version) :
    (((m.fireTimers now).updateState b u ev now).2.success = true)
    ∧ (((m.fireTimers now).acquireLock b paths now).2.success = true) := by
  have hver : (m.fireTimers now).state.version = m.state.version := by
    unfold Manager.fireTimers
    exact releaseAll_version _ m
  have h1 : ev.any (fun e => e != (m.fireTimers now).state.version) = false := by
    rcases hv with h | h <;> subst h <;> simp [Option.any, hver]
  have hnot : ∀ p ∈ touchedPaths u,
      p ∉ (m.fireTimers now).state.locked_properties := by
    intro p hp hmem
    have hlp : p ∈ m.state.locked_properties := by
      unfold Manager.fireTimers at hmem
      exact releaseAll_lp_subset _ m hmem
    obtain ⟨l, hlmem, hpl⟩ := hcov p hlp
    have hdue : l.expiresAt ≤ now := hexpU l hlmem ⟨p, hp, hpl⟩
    have hidmem : l.id ∈ (m.locks.filter (fun l' => l'.expiresAt ≤ now)).map
        Lock.id :=
      List.mem_map.mpr ⟨l, List.mem_filter.mpr ⟨hlmem, by simpa using hdue⟩, rfl⟩
    exact releaseAll_property_eliminated _ m l p hnodup hlmem hidmem hpl hmem
  have h2 : (m.fireTimers now).getLockedProperties u = [] := by
    rw [getLockedProperties_eq_filter]
    rw [List.filter_eq_nil_iff]
    intro p hp
    simpa using hnot p hp
  constructor
  · exact (updateState_success_parts _ b u ev now h1 h2).1
  · have hconf : paths.foldl (fun acc prop =>
        acc ++ ((m.fireTimers now).locks.foldl (fun acc2 lock =>
          if prop ∈ lock.properties ∧ lock.agent ≠ b ∧ now < lock.expiresAt
          then acc2 ++ [prop ++ " locked by " ++ lock.agent] else acc2) []))
        [] = [] := by
      apply foldl_append_nil
      intro prop hprop
      apply foldl_guard_append_eq
      intro lock hlock hc
      obtain ⟨hpl, _, hlt⟩ := hc
      have hlmem : lock ∈ m.locks := by
        unfold Manager.fireTimers at hlock
        exact releaseAll_locks_subset _ m hlock
      have := hexpP lock hlmem ⟨prop, hprop, hpl⟩
      omega
    rw [Manager.acquireLock]
    simp only [hconf]
    rfl

/-- C4 witness: `dimension_agent` locked `design.width` at time 0 (TTL 5
seconds); at time 6000 the lock has expired, and `material_agent` both
writes `design.width` and acquires a fresh lock on it successfully. -/
theorem C4_expired_lock_stops_excluding_witness :
    (((lockedManager.fireTimers 6000).updateState "material_agent"
        designWidthUpdate none 6000).2.success = true)
    ∧ (((lockedManager.fireTimers 6000).acquireLock "material_agent"
        ["design.width"] 6000).2.success = true) :=
  C4_expired_lock_stops_excluding lockedManager 6000 "material_agent"
    designWidthUpdate none ["design.width"]
    (by decide) (by decide) (by decide) (by decide) (Or.inl rfl)

/-- C1: a transact/updateState call whose `expectedVersion` differs from
the current version is rejected as stale, and of two sequential calls with
the same `expectedVersion` equal to the initial version exactly the first
succeeds.  `SharedStateManager.updateState` behaves exactly so; but
`SharedDesignState.updateState` guards the check with the JS-truthy test
`expectedVersion && ...`, so on a fresh store (version 0) two calls that
both present `expectedVersion = 0` BOTH succeed (final version 2), where
the claim requires the second to receive the stale-version conflict. -/
theorem C1_stale_version_zero_bypassed :
    ((Manager.init.updateState "worker_a" designWidthUpdate (some 0) 1000).2.success
      = true)
    ∧ (((Manager.init.updateState "worker_a" designWidthUpdate (some 0) 1000).1.updateState
          "worker_b" designWidthUpdate (some 0) 2000).2 =
        { success := false, newVersion := 1,
          conflicts :=
            some ["Version mismatch - state has been updated by another agent"] })
    ∧ (((SDState.init Js.null).updateState (fun st _ => st) "worker_a"
          Js.null (some 0) 1000).2.success = true)
    ∧ ((((SDState.init Js.null).updateState (fun st _ => st) "worker_a"
          Js.null (some 0) 1000).1.updateState (fun st _ => st) "worker_b"
          Js.null (some 0) 2000).2.success = true)
    ∧ ((((SDState.init Js.null).updateState (fun st _ => st) "worker_a"
          Js.null (some 0) 1000).1.updateState (fun st _ => st) "worker_b"
          Js.null (some 0) 2000).1.version = 2) :=
  ⟨rfl, rfl, rfl, rfl, rfl⟩

/-- C3: with `design.width` locked by `dimension_agent` (lock not yet
expired, auto-release not yet due), a competing write by `material_agent`
is rejected with one conflict entry per locked path — but the owner's own
write is rejected identically: `updateState`'s lock check consults the flat
`locked_properties` set and ignores lock ownership (unlike `acquireLock`,
which exempts the owner), so the claim's "a transact call by the lock's
owner touching P still succeeds" fails on the code. -/
theorem C3_owner_write_rejected :
    ((Manager.init.acquireLock "dimension_agent" ["design.width"] 0).2.success
      = true)
    ∧ (((lockedManager.fireTimers 1000).updateState "dimension_agent"
          designWidthUpdate none 1000).2 =
        { success := false, newVersion := 0,
          conflicts := some ["Property design.width is locked"] })
    ∧ (((lockedManager.fireTimers 1000).updateState "material_agent"
          designWidthUpdate none 1000).2 =
        { success := false, newVersion := 0,
          conflicts := some ["Property design.width is locked"] }) :=
  ⟨rfl, rfl, rfl⟩

/-- C5 counterexample: on scenario A's merged bookshelf document, the
`shelf_deflection` rule's max span for 0.75-inch mdf is 24, not the 20 the
claim states (the coordinator's span table has no mdf row and falls back to
pine), and the automatic fix sets the width to 24 — which is neither "at
most 20" nor a change of material or thickness. -/
theorem C5_fix_width_exceeds_twenty :
    calculateMaxSpan "mdf" 0.75 = 24
    ∧ ¬ ((24 : Rat) ≤ 20)
    ∧ ((shelfDeflectionRule.validate scenarioABookshelf).fix.dimensions.bind
        (·.width) = some 24)
    ∧ (shelfDeflectionRule.validate scenarioABookshelf).fix.materials
        = some ["mdf"]
    ∧ (shelfDeflectionRule.validate scenarioABookshelf).fix.boardThickness
        = some 0.75 := by
  refine ⟨?_, by norm_num, ?_, ?_, ?_⟩ <;>
    simp [shelfDeflectionRule, scenarioABookshelf, calculateMaxSpan, getKey,
      List.find?, jsOrRat, jsOrStr, emptyDimensions]

/-- C5 (amended): on scenario A's merged bookshelf document the
`shelf_deflection` rule applies and fails — the span 48 exceeds the max
span 24 that `calculateMaxSpan` yields for 0.75-inch mdf via its pine
fallback (the knowledge graph's table, which the rule does not consult,
tabulates 20) — producing a high-severity conflict whose automatic fix
sets the width to exactly 24 and changes nothing else, and the turn's
final validation of the unresolved document is not valid. -/
theorem C5_shelf_deflection_scenario :
    shelfDeflectionRule.applies scenarioABookshelf = true
    ∧ (shelfDeflectionRule.validate scenarioABookshelf).valid = false
    ∧ calculateMaxSpan "mdf" 0.75 = 24
    ∧ kgSpanTable "0.75" "mdf" = some 20
    ∧ ((detectConflicts scenarioABookshelf).head?.map
        (fun c => (c.type, c.severity)) = some ("shelf_deflection", .high))
    ∧ ((shelfDeflectionRule.validate scenarioABookshelf).fix =
        { scenarioABookshelf with
          dimensions := some { width := some 24, height := some 72,
                               depth := some 12 } })
    ∧ (validateCompleteDesign scenarioABookshelf).isValid = false := by
  refine ⟨?_, ?_, ?_, rfl, ?_, ?_, ?_⟩ <;>
    simp [shelfDeflectionRule, jointStrengthRule, stabilityRule,
      validationRules, detectConflicts, validateCompleteDesign,
      scenarioABookshelf, calculateMaxSpan, calculateJointStrength,
      estimateLoad, getStrongerJoint, isCompatible, compatibilityMatrix,
      getKey, List.find?, jsOrRat, jsOrStr, emptyDimensions] <;>
    norm_num

/-- C6 counterexample: with three involved agents the bus resolves by
voting, but not by "each worker casts one vote".  With cached votes
dimension→C, material→C, joinery→A, a one-vote-per-worker election
(`specVotingResolve`, the spec's words) elects C with 2 votes to 1; the
source's `resolveByVoting` re-queries every agent once per proposal round
and resets each proposal's tally at the start of its own round, which here
erases C's earlier votes and returns A. -/
theorem C6_voting_differs_from_spec :
    resolveConflict conflictAgents conflictProposals conflictVotes = some "A"
    ∧ specVotingResolve conflictAgents conflictProposals conflictVotes
        = some "C"
    ∧ resolveConflict conflictAgents conflictProposals conflictVotes
        ≠ specVotingResolve conflictAgents conflictProposals conflictVotes := by
  refine ⟨rfl, rfl, ?_⟩
  intro h
  simp only [show resolveConflict conflictAgents conflictProposals conflictVotes
      = some "A" from rfl,
    show specVotingResolve conflictAgents conflictProposals conflictVotes
      = some "C" from rfl] at h
  exact absurd (Option.some.inj h) (by decide)

/-- With no votes cast, a voting round only resets the round's tally. -/
theorem votingRound_no_votes (agents : List String)
    (proposals : List (String × String)) (vote : String → Option String)
    (votes : List (Option String × Nat)) (round : String × String)
    (h : ∀ a ∈ agents, vote a = none) :
    votingRound agents proposals vote votes round =
      setKey votes (some round.2) 0 := by
  unfold votingRound
  generalize setKey votes (some round.2) 0 = votes1
  induction agents generalizing votes1 with
  | nil => rfl
  | cons a rest ih =>
    rw [List.foldl_cons]
    by_cases ha : a = round.1
    · rw [if_pos ha]
      exact ih (fun a' ha' => h a' (by simp [ha'])) votes1
    · rw [if_neg ha, h a (by simp)]
      exact ih (fun a' ha' => h a' (by simp [ha'])) votes1

/-- With no votes cast, every tally entry is zero. -/
theorem tally_all_zero (agents : List String)
    (proposals rounds : List (String × String)) (vote : String → Option String)
    (votes : List (Option String × Nat))
    (hv : ∀ a ∈ agents, vote a = none)
    (hz : ∀ kv ∈ votes, kv.2 = 0) :
    ∀ kv ∈ rounds.foldl (votingRound agents proposals vote) votes, kv.2 = 0 := by
  induction rounds generalizing votes with
  | nil => exact hz
  | cons round rest ih =>
    rw [List.foldl_cons, votingRound_no_votes agents proposals vote votes round hv]
    apply ih
    intro kv hkv
    rcases mem_setKey hkv with h1 | h1
    · exact hz kv h1
    · simp [h1]

/-- The winner scan of an all-zero tally elects nothing. -/
theorem winner_all_zero (votes : List (Option String × Nat))
    (hz : ∀ kv ∈ votes, kv.2 = 0) :
    votes.foldl (fun (acc : Nat × Option (Option String)) kv =>
      if kv.2 > acc.1 then (kv.2, some kv.1) else acc) (0, none) = (0, none) := by
  induction votes with
  | nil => rfl
  | cons kv rest ih =>
    rw [List.foldl_cons, if_neg (by simp [hz kv (by simp)])]
    exact ih (fun kv' h => hz kv' (by simp [h]))

/-- C6 (amended): with two involved workers the resolution is the
first-submitted proposal among those of maximal fixed priority (so the
higher-ranked worker's proposal wins, and a priority tie goes to the first
proposal submitted); with more than two involved workers a voting scheme
runs in which every involved agent except each round's proposer is
re-queried once per proposal round and each proposal's tally is reset at
the start of its own round, and when no votes at all are cast the first
proposal submitted is returned. -/
theorem C6_resolution_amended :
    (∀ (a1 a2 p1 p2 : String) (vote : String → Option String),
      resolveConflict [a1, a2] [(a1, p1), (a2, p2)] vote =
        some (if priorities a2 > priorities a1 then p2 else p1))
    ∧ (∀ (agents : List String) (proposals : List (String × String))
        (vote : String → Option String),
        2 < agents.length → (∀ a ∈ agents, vote a = none) →
        resolveConflict agents proposals vote = proposals.head?.map (·.2)) := by
  constructor
  · intro a1 a2 p1 p2 vote
    have hpos : (-1 : Int) < (priorities a1 : Int) :=
      lt_of_lt_of_le (by norm_num) (Int.natCast_nonneg _)
    by_cases h : priorities a2 > priorities a1
    · have h' : ((priorities a1 : Int) < (priorities a2 : Int)) := by
        exact_mod_cast h
      simp [resolveConflict, hpos, h, h']
    · have h' : ¬ ((priorities a1 : Int) < (priorities a2 : Int)) := by
        simpa using (by exact_mod_cast Nat.le_of_not_lt h :
          (priorities a2 : Int) ≤ (priorities a1 : Int))
      simp [resolveConflict, hpos, h, h']
  · intro agents proposals vote hlen hv
    have hz : ∀ kv ∈ proposals.foldl (votingRound agents proposals vote) [],
        kv.2 = 0 :=
      tally_all_zero agents proposals proposals vote [] hv (by simp)
    rw [resolveConflict, if_pos (by simpa using hlen)]
    unfold resolveByVoting
    simp only [winner_all_zero _ hz]

/-- C6 (amended) witness: at the two-agent conflict
`joinery_agent` vs `material_agent` the higher-priority material proposal
wins, and in a three-agent conflict where nobody answers the vote query
the first (and only) submitted proposal is returned. -/
theorem C6_resolution_amended_witness :
    resolveConflict ["joinery_agent", "material_agent"]
      [("joinery_agent", "J"), ("material_agent", "M")] conflictVotes = some "M"
    ∧ resolveConflict ["dimension_agent", "material_agent", "joinery_agent"]
        [("dimension_agent", "A")] (fun _ => none) = some "A" :=
  ⟨C6_resolution_amended.1 "joinery_agent" "material_agent" "J" "M"
      conflictVotes,
   C6_resolution_amended.2 ["dimension_agent", "material_agent",
      "joinery_agent"] [("dimension_agent", "A")] (fun _ => none)
      (by decide) (fun a _ => rfl)⟩

/-- C7 (amended): `requestValidation` returns an outcome for every named
worker that is registered — the result of its query when the query
resolves, and the synthesized `valid = false` failure result when the
query throws, so no single failing validator aborts the batch — while a
named worker that is not registered is silently omitted from the map
rather than given an outcome. -/
theorem C7_validation_amended (reg : List String)
    (out : String → Except String VRes) (vals : List String) (name : String) :
    (name ∉ reg → getKey (requestValidation reg out vals) name = none)
    ∧ (name ∈ vals → name ∈ reg →
        getKey (requestValidation reg out vals) name =
          some (match out name with
                | .ok r => r
                | .error e => synthFailure name e))
    ∧ (∀ e, (synthFailure name e).valid = false) := by
  have main : ∀ (vs : List String) (acc : List (String × VRes)),
      getKey (vs.foldl (fun results agentName =>
        if agentName ∈ reg then
          match out agentName with
          | .ok r => setKey results agentName r
          | .error e => setKey results agentName (synthFailure agentName e)
        else results) acc) name =
      if name ∈ reg ∧ name ∈ vs then
        some (match out name with
              | .ok r => r
              | .error e => synthFailure name e)
      else getKey acc name := by
    intro vs
    induction vs with
    | nil => intro acc; simp
    | cons v rest ih =>
      intro acc
      rw [List.foldl_cons, ih]
      by_cases hvr : v ∈ reg
      · by_cases hnv : name = v
        · subst hnv
          by_cases hrest : name ∈ rest
          · simp [hvr, hrest]
          · rcases hout : out name with r | e <;>
              simp [hvr, hrest, hout, getKey_setKey]
        · rcases hout : out v with r | e <;>
            by_cases hrest : name ∈ rest <;>
              simp [hvr, hout, hrest, hnv, getKey_setKey]
      · by_cases hnv : name = v
        · subst hnv
          by_cases hrest : name ∈ rest <;> simp [hvr, hrest]
        · by_cases hrest : name ∈ rest <;> simp [hvr, hrest, hnv]
  refine ⟨?_, ?_, fun e => rfl⟩
  · intro hreg
    unfold requestValidation
    rw [main vals []]
    simp [hreg, getKey]
  · intro hvals hreg
    unfold requestValidation
    rw [main vals []]
    simp [hreg, hvals]

/-- C7 (amended) witness: with only `validation_agent` registered and its
query throwing `Message queue is full`, validating
`[validation_agent, ghost]` yields a map with the synthesized failure for
`validation_agent` (valid = false) and no entry for the unregistered
`ghost`. -/
theorem C7_validation_amended_witness :
    getKey (requestValidation ["validation_agent"]
      (fun _ => .error "Message queue is full")
      ["validation_agent", "ghost"]) "ghost" = none
    ∧ getKey (requestValidation ["validation_agent"]
        (fun _ => .error "Message queue is full")
        ["validation_agent", "ghost"]) "validation_agent" =
      some (synthFailure "validation_agent" "Message queue is full")
    ∧ (synthFailure "validation_agent" "Message queue is full").valid = false :=
  ⟨(C7_validation_amended ["validation_agent"]
      (fun _ => .error "Message queue is full")
      ["validation_agent", "ghost"] "ghost").1 (by decide),
   (C7_validation_amended ["validation_agent"]
      (fun _ => .error "Message queue is full")
      ["validation_agent", "ghost"] "validation_agent").2.1 (by decide)
      (by decide),
   (C7_validation_amended ["validation_agent"]
      (fun _ => .error "Message queue is full")
      ["validation_agent", "ghost"] "validation_agent").2.2
      "Message queue is full"⟩

/-- C8: `rollbackToVersion(v)` succeeds exactly when the snapshot history
holds a snapshot captured at exactly version `v`; on success the lock
table is cleared and the restored state — hence a subsequent `read()` —
is exactly the snapshot's document, constraints and version.  Snapshots
are captured only every 10th transaction (plus the version-0 snapshot of
the constructor): an accepted `updateState` leaves the snapshot history
untouched unless the new version is divisible by 10, in which case it
appends a snapshot of the new state (`hlen3` keeps the ring below its
capacity so no old snapshot is dropped here). -/
theorem C8_rollback_restores_snapshot
    (m m2 m3 : Manager) (v : Nat) (s : Snapshot)
    (agent2 agent3 : String) (u2 u3 : StateUpdate) (ev2 ev3 : Option Nat)
    (now2 now3 : Int)
    (hfind : m.snapshots.find? (fun s' => s'.version = v) = some s)
    (hsucc2 : (m2.updateState agent2 u2 ev2 now2).2.success = true)
    (hmod2 : (m2.state.version + 1) % 10 ≠ 0)
    (hsucc3 : (m3.updateState agent3 u3 ev3 now3).2.success = true)
    (hmod3 : (m3.state.version + 1) % 10 = 0)
    (hlen3 : m3.snapshots.length < MAX_HISTORY_SIZE) :
    ((m.rollbackToVersion v).2 = true)
    ∧ ((m.rollbackToVersion v).1.locks = [])
    ∧ ((m.rollbackToVersion v).1.state = s.state)
    ∧ (∀ (m' : Manager) (v' : Nat),
        (m'.rollbackToVersion v').2 = m'.snapshots.any (fun s' => s'.version = v'))
    ∧ ((m2.updateState agent2 u2 ev2 now2).1.snapshots = m2.snapshots)
    ∧ ((m3.updateState agent3 u3 ev3 now3).1.snapshots =
        m3.snapshots ++
          ([{ version := m3.state.version + 1, timestamp := now3,
              state := (m3.updateState agent3 u3 ev3 now3).1.state }] :
            List Snapshot)) := by
  obtain ⟨h12, h22⟩ := (updateState_success_iff m2 agent2 u2 ev2 now2).mp hsucc2
  obtain ⟨h13, h23⟩ := (updateState_success_iff m3 agent3 u3 ev3 now3).mp hsucc3
  refine ⟨?_, ?_, ?_, ?_, ?_, ?_⟩
  · rw [Manager.rollbackToVersion, hfind]
  · rw [Manager.rollbackToVersion, hfind]
  · rw [Manager.rollbackToVersion, hfind]
  · intro m' v'
    rcases hf : m'.snapshots.find? (fun s' => s'.version = v') with _ | s''
    · rw [Manager.rollbackToVersion, hf, eq_comm]
      rw [List.any_eq_false]
      intro s'' hs''
      simpa using List.find?_eq_none.mp hf s'' hs''
    · rw [Manager.rollbackToVersion, hf, eq_comm]
      rw [List.any_eq_true]
      exact ⟨s'', List.mem_of_find?_eq_some hf, by
        have := List.find?_some hf
        simpa using this⟩
  · rw [(updateState_success_parts m2 agent2 u2 ev2 now2 h12 h22).2.2.2,
      if_neg hmod2]
  · rw [(updateState_success_parts m3 agent3 u3 ev3 now3 h13 h23).2.2.2,
      if_pos hmod3]
    have hlen : (m3.snapshots ++
        ([{ version := m3.state.version + 1, timestamp := now3,
            state := (m3.updateState agent3 u3 ev3 now3).1.state }] :
          List Snapshot)).length ≤ MAX_HISTORY_SIZE := by
      simpa using hlen3
    simp only []
    rw [if_neg (by omega)]

/-- C8 witness: rolling the fresh store back to version 0 succeeds and
restores the initial state; the tenth accepted transaction (and only it)
appends a snapshot at version 10. -/
theorem C8_rollback_restores_snapshot_witness :
    ((Manager.init.rollbackToVersion 0).2 = true)
    ∧ ((Manager.init.rollbackToVersion 0).1.state = initState)
    ∧ ((Manager.init.updateState "worker_a" {} none 0).1.snapshots =
        Manager.init.snapshots)
    ∧ ((nineUpdates.updateState "worker_a" {} none 0).1.snapshots =
        nineUpdates.snapshots ++
          ([{ version := 10, timestamp := 0,
              state := (nineUpdates.updateState "worker_a" {} none 0).1.state }] :
            List Snapshot)) := by
  have h := C8_rollback_restores_snapshot Manager.init Manager.init nineUpdates
    0 { version := 0, timestamp := 0, state := initState }
    "worker_a" "worker_a" {} {} none none 0 0
    rfl rfl (by decide) rfl (by decide) (by decide)
  exact ⟨h.1, h.2.2.1, h.2.2.2.2.1, h.2.2.2.2.2⟩

/-- C9: `releaseLock` is idempotent and error-free at its interface (it is
a total function of the model): releasing an id that is unknown returns
`false` and returns the manager — locks, locked-property set, document,
constraints and version — unchanged; releasing a held id twice yields
`true` then `false`; and releasing an id whose lock has already expired
(its auto-release timer being due has already removed it) yields `false`
and changes nothing. -/
theorem C9_release_idempotent
    (ma mb mc : Manager) (ida idb idc : Nat) (now : Int)
    (hmiss : ma.locks.find? (fun l => l.id = ida) = none)
    (hhit : (mb.releaseLock idb).2 = true)
    (hexp : ∀ l ∈ mc.locks, l.id = idc → l.expiresAt ≤ now) :
    (ma.releaseLock ida = (ma, false))
    ∧ ((mb.releaseLock idb).1.releaseLock idb = ((mb.releaseLock idb).1, false))
    ∧ ((mc.fireTimers now).releaseLock idc = ((mc.fireTimers now), false)) := by
  refine ⟨?_, ?_, ?_⟩
  · rw [Manager.releaseLock, hmiss]
  · rcases hf : mb.locks.find? (fun l => l.id = idb) with _ | lock
    · rw [Manager.releaseLock, hf] at hhit
      simp at hhit
    · have hnone : ((mb.releaseLock idb).1.locks).find?
          (fun l => l.id = idb) = none := by
        rw [List.find?_eq_none]
        intro l hl
        rw [Manager.releaseLock, hf] at hl
        simpa using (List.mem_filter.mp hl).2
      rw [Manager.releaseLock, hnone]
  · have hnolock : ∀ l ∈ (mc.fireTimers now).locks, l.id ≠ idc := by
      intro l hl
      have hlmem : l ∈ mc.locks := by
        unfold Manager.fireTimers at hl
        exact releaseAll_locks_subset _ mc hl
      intro hid
      have hdue : l.expiresAt ≤ now := hexp l hlmem hid
      have hidmem : l.id ∈ (mc.locks.filter
          (fun l' => l'.expiresAt ≤ now)).map Lock.id :=
        List.mem_map.mpr
          ⟨l, List.mem_filter.mpr ⟨hlmem, by simpa using hdue⟩, rfl⟩
      rw [hid] at hidmem
      exact releaseAll_id_eliminated _ mc idc hidmem l hl hid
    have hnone : ((mc.fireTimers now).locks).find?
        (fun l => l.id = idc) = none := by
      rw [List.find?_eq_none]
      intro l hl
      simpa using hnolock l hl
    rw [Manager.releaseLock, hnone]

/-- C9 witness: on the fresh store, releasing the unknown id 0 is a no-op
returning `false`; after `dimension_agent`'s lock is acquired (id 0),
releasing it twice yields `true` then `false`; and at time 6000, after the
lock expired and its auto-release ran, releasing id 0 again yields `false`
and changes nothing. -/
theorem C9_release_idempotent_witness :
    (Manager.init.releaseLock 0 = (Manager.init, false))
    ∧ ((lockedManager.releaseLock 0).2 = true)
    ∧ ((lockedManager.releaseLock 0).1.releaseLock 0 =
        ((lockedManager.releaseLock 0).1, false))
    ∧ ((lockedManager.fireTimers 6000).releaseLock 0 =
        ((lockedManager.fireTimers 6000), false)) := by
  have h := C9_release_idempotent Manager.init lockedManager lockedManager
    0 0 0 6000 rfl rfl (by decide)
  exact ⟨h.1, rfl, h.2.1, h.2.2⟩

/-- The length of the retry-requeue fold grows by at most one per
processed item. -/
theorem foldl_requeue_length (fails : QueueItem → Bool) :
    ∀ (l acc : List QueueItem),
      (l.foldl (fun acc item =>
        if fails item ∧ item.retries < MAX_RETRIES then
          acc ++ ([{ item with retries := item.retries + 1 }] : List QueueItem)
        else acc) acc).length ≤ acc.length + l.length := by
  intro l
  induction l with
  | nil => intro acc; simp
  | cons item rest ih =>
    intro acc
    rw [List.foldl_cons]
    by_cases h : fails item ∧ item.retries < MAX_RETRIES
    · rw [if_pos h]
      calc _ ≤ (acc ++ ([{ item with retries := item.retries + 1 }] :
              List QueueItem)).length + rest.length := ih _
        _ = acc.length + (item :: rest).length := by simp; omega
    · rw [if_neg h]
      calc _ ≤ acc.length + rest.length := ih acc
        _ ≤ acc.length + (item :: rest).length := by simp

/-- C10: the bus's internal queue never exceeds `MAX_QUEUE_SIZE = 1000`
entries: an enqueue attempted while the queue already holds 1000 entries
raises `Message queue is full` before anything is enqueued (`query` calls
`addToQueue` synchronously before dispatching, so its caller sees this
error rather than a timeout or target-not-found), an enqueue with room
grows the queue by exactly one entry staying within the bound, and a
processor tick (sort, splice up to 10, re-queue failed items with
incremented retry counts) never grows the queue. -/
theorem C10_queue_never_exceeds_bound
    (qfull q q2 : List QueueItem) (msg msg2 : Js) (prio prio2 : Nat)
    (now now2 : Int) (fails : QueueItem → Bool)
    (hfull : qfull.length = MAX_QUEUE_SIZE)
    (hroom : q.length < MAX_QUEUE_SIZE) :
    (addToQueue qfull msg prio now = .error "Message queue is full")
    ∧ (addToQueue q msg2 prio2 now2 =
        .ok (q ++ ([{ message := msg2, priority := prio2, timestamp := now2,
                      retries := 0 }] : List QueueItem))
        ∧ (q ++ ([{ message := msg2, priority := prio2, timestamp := now2,
                    retries := 0 }] : List QueueItem)).length ≤ MAX_QUEUE_SIZE)
    ∧ ((processTick q2 fails).length ≤ q2.length) := by
  refine ⟨?_, ⟨?_, ?_⟩, ?_⟩
  · rw [addToQueue, if_pos (by omega)]
  · rw [addToQueue, if_neg (by omega)]
  · simp only [List.length_append, List.length_cons, List.length_nil]
    omega
  · have h1 := foldl_requeue_length fails ((q2.mergeSort queueLE).take 10)
      ((q2.mergeSort queueLE).drop 10)
    have h2 : ((q2.mergeSort queueLE).drop 10).length +
        ((q2.mergeSort queueLE).take 10).length = q2.length := by
      rw [Nat.add_comm, ← List.length_append, List.take_append_drop]
      exact (List.mergeSort_perm q2 queueLE).length_eq
    simp only [processTick]
    omega

/-- C10 witness: at a queue of exactly 1000 entries the enqueue errors
with `Message queue is full`; at the empty queue it enqueues one entry
(staying within the bound), and a tick of a singleton queue does not grow
it. -/
theorem C10_queue_never_exceeds_bound_witness :
    (addToQueue (List.replicate 1000 nullQueueItem) Js.null 1 0 =
        .error "Message queue is full")
    ∧ (addToQueue [] Js.null 1 0 =
        .ok [{ message := Js.null, priority := 1, timestamp := 0,
               retries := 0 }]
        ∧ ([nullQueueItem] : List QueueItem).length ≤ MAX_QUEUE_SIZE)
    ∧ ((processTick [nullQueueItem] (fun _ => true)).length ≤
        ([nullQueueItem] : List QueueItem).length) := by
  have h := C10_queue_never_exceeds_bound
    (List.replicate 1000 nullQueueItem) [] [nullQueueItem]
    Js.null Js.null 1 1 0 0 (fun _ => true)
    (by rw [List.length_replicate]; rfl) (by decide)
  exact ⟨h.1, ⟨h.2.1.1, h.2.1.2⟩, h.2.2⟩

/-- C7 counterexample: `requestValidation` does not return an outcome for
every named worker — a validator name that is not registered is silently
dropped (`if (!agent) return null`), so validating with the single unknown
name `ghost` yields an empty result map with no entry for `ghost`. -/
theorem C7_unregistered_validator_omitted :
    requestValidation [] (fun a => .ok (synthFailure a "unused")) ["ghost"] = []
    ∧ getKey (requestValidation [] (fun a => .ok (synthFailure a "unused"))
        ["ghost"]) "ghost" = none :=
  ⟨rfl, rfl⟩

end GF
